import Mathlib

/-!
Verification development for the Flwr-Farm "next week email" collection
script (update-collection-basic.js and its later revision).  The program
is embedded shallowly: dates are epoch-day integers, strings are Lean
strings, JS number coercion is modelled over exact rationals, and the
sequential pipeline of remote calls is a function over a record of
pre-parsed remote responses together with a trace of issued calls.
-/

namespace FlwrFarm

/-! ## Calendar model

JS Date objects, normalised to UTC midnight, are modelled by their epoch
day number (days since 1970-01-01).  The Gregorian conversions follow the
standard civil-from-days / days-from-civil algorithms, which is what the
ECMAScript Date getters compute.
-/

/-- Epoch day number of a civil date (year, month 1..12, day). -/
def daysFromCivil (y m d : Int) : Int :=
  let y' : Int := if m ≤ 2 then y - 1 else y
  let era : Int := y' / 400
  let yoe : Int := y' - era * 400
  let mp : Int := (m + 9) % 12
  let doy : Int := (153 * mp + 2) / 5 + d - 1
  let doe : Int := yoe * 365 + yoe / 4 - yoe / 100 + doy
  era * 146097 + doe - 719468

/-- Civil date (year, month, day) of an epoch day number. -/
def civilFromDays (z : Int) : Int × Int × Int :=
  let z' : Int := z + 719468
  let era : Int := z' / 146097
  let doe : Int := z' - era * 146097
  let yoe : Int := (doe - doe / 1460 + doe / 36524 - doe / 146096) / 365
  let y : Int := yoe + era * 400
  let doy : Int := doe - (365 * yoe + yoe / 4 - yoe / 100)
  let mp : Int := (5 * doy + 2) / 153
  let d : Int := doy - (153 * mp + 2) / 5 + 1
  let m : Int := mp + (if mp < 10 then 3 else -9)
  (if m ≤ 2 then y + 1 else y, m, d)

/-- The UTC year of an epoch day, i.e. getUTCFullYear of the date. -/
def yearOfDay (z : Int) : Int := (civilFromDays z).1

/-- Source function isoWeekNumberUTC, over the epoch day of the input
date (the source first normalises the date to UTC midnight).  getUTCDay
yields 0..6 with Sunday = 0; epoch day 0 (1970-01-01) was a Thursday, so
getUTCDay is (e + 4) mod 7.  The final step is Math.ceil(diffDays / 7);
for an integer n, the ceiling of n / 7 equals (n + 6) floor-div 7. -/
def isoWeekNumberUTC (e : Int) : Int :=
  let day : Int := if (e + 4) % 7 = 0 then 7 else (e + 4) % 7
  let th : Int := e + 4 - day
  let diffDays : Int := th - daysFromCivil (yearOfDay th) 1 1 + 1
  (diffDays + 6) / 7

/-- Modelled from the spec: the ISO-8601 reference week number as worded
in the specification: take the ISO day-of-week (Monday = 1 .. Sunday = 7),
shift the date to the Thursday of its week by adding 4 minus that value,
then ceil(daysSinceJan1 / 7) where Jan 1 of the Thursday year is day 1. -/
def isoWeekSpec (e : Int) : Int :=
  let isoDow : Int := (e + 3) % 7 + 1
  let th : Int := e + (4 - isoDow)
  let daysSinceJan1 : Int := th - daysFromCivil (yearOfDay th) 1 1 + 1
  (daysSinceJan1 + 6) / 7

/-- Source function nextWeekHandleUTC: the handle for the ISO week of
now + 7 days.  Adding 7 * 86400000 ms shifts the epoch day by exactly 7. -/
def nextWeekHandleUTC (nowDay : Int) (suffix : String) : String :=
  "week-" ++ toString (isoWeekNumberUTC (nowDay + 7)) ++ "-" ++ suffix

/-- Source: the handle constant, process.argv[2] or-else the computed
default.  The JS or-operator takes the right operand whenever the left is
falsy, which for strings means absent or empty. -/
def handle (argv2 : Option String) (nowDay : Int) : String :=
  match argv2 with
  | some s => if s = "" then nextWeekHandleUTC nowDay "plants" else s
  | none => nextWeekHandleUTC nowDay "plants"

theorem dow_shift (e : Int) :
    (if (e + 4) % 7 = 0 then 7 else (e + 4) % 7) = (e + 3) % 7 + 1 := by
  split_ifs with h <;> omega

theorem isoWeek_eq_spec (e : Int) : isoWeekNumberUTC e = isoWeekSpec e := by
  simp only [isoWeekNumberUTC, isoWeekSpec]
  rw [dow_shift]
  have hx : e + 4 - ((e + 3) % 7 + 1) = e + (4 - ((e + 3) % 7 + 1)) := by ring
  rw [hx]

/-! ## HTML escaping (source function esc, later revision) -/

/-- One global single-character replace pass, modelling a global
single-character regex replace on a string seen as its character list. -/
def replaceAllChar (pat : Char) (rep : List Char) : List Char → List Char
  | [] => []
  | c :: l => (if c = pat then rep else [c]) ++ replaceAllChar pat rep l

/-- Source function esc on character lists: the four chained global
replaces, in source order (ampersand first, double quote last). -/
def escL (l : List Char) : List Char :=
  replaceAllChar '"' "&quot;".data
    (replaceAllChar '>' "&gt;".data
      (replaceAllChar '<' "&lt;".data
        (replaceAllChar '&' "&amp;".data l)))

/-- Source function esc.  All call sites pass strings, so the String(s)
coercion at its entry is the identity. -/
def esc (s : String) : String := ⟨escL s.data⟩

theorem replaceAllChar_append (pat : Char) (rep a b : List Char) :
    replaceAllChar pat rep (a ++ b) =
      replaceAllChar pat rep a ++ replaceAllChar pat rep b := by
  induction a with
  | nil => rfl
  | cons c l ih => simp [replaceAllChar, ih]

theorem escL_append (a b : List Char) : escL (a ++ b) = escL a ++ escL b := by
  simp [escL, replaceAllChar_append]

/-- What a single character becomes under the four replaces. -/
def escChar (c : Char) : List Char :=
  if c = '&' then "&amp;".data
  else if c = '<' then "&lt;".data
  else if c = '>' then "&gt;".data
  else if c = '"' then "&quot;".data
  else [c]

theorem escL_cons (c : Char) (l : List Char) :
    escL (c :: l) = escChar c ++ escL l := by
  have h : (c :: l) = [c] ++ l := rfl
  rw [h, escL_append]
  congr 1
  by_cases h1 : c = '&'
  · subst h1; rfl
  by_cases h2 : c = '<'
  · subst h2; rfl
  by_cases h3 : c = '>'
  · subst h3; rfl
  by_cases h4 : c = '"'
  · subst h4; rfl
  simp [escL, replaceAllChar, escChar, h1, h2, h3, h4]

/-- Character lists in which no raw less-than, greater-than or double
quote occurs and every ampersand starts one of the four entities emitted
by esc. -/
inductive EscapedHtml : List Char → Prop
  | nil : EscapedHtml []
  | amp {l} : EscapedHtml l → EscapedHtml ("&amp;".data ++ l)
  | lt {l} : EscapedHtml l → EscapedHtml ("&lt;".data ++ l)
  | gt {l} : EscapedHtml l → EscapedHtml ("&gt;".data ++ l)
  | quot {l} : EscapedHtml l → EscapedHtml ("&quot;".data ++ l)
  | safe {c l} : c ≠ '&' → c ≠ '<' → c ≠ '>' → c ≠ '"' →
      EscapedHtml l → EscapedHtml (c :: l)

theorem escL_escaped (l : List Char) : EscapedHtml (escL l) := by
  induction l with
  | nil => exact EscapedHtml.nil
  | cons c l ih =>
    rw [escL_cons]
    by_cases h1 : c = '&'
    · subst h1; exact EscapedHtml.amp ih
    by_cases h2 : c = '<'
    · subst h2; exact EscapedHtml.lt ih
    by_cases h3 : c = '>'
    · subst h3; exact EscapedHtml.gt ih
    by_cases h4 : c = '"'
    · subst h4; exact EscapedHtml.quot ih
    have hc : escChar c = [c] := by simp [escChar, h1, h2, h3, h4]
    rw [hc]
    exact EscapedHtml.safe h1 h2 h3 h4 ih

theorem escaped_no_raw {l : List Char} (h : EscapedHtml l) :
    '<' ∉ l ∧ '>' ∉ l ∧ '"' ∉ l := by
  induction h with
  | nil => simp
  | amp _ ih =>
    refine ⟨?_, ?_, ?_⟩ <;> intro hm <;> rcases List.mem_append.mp hm with h' | h'
    · exact absurd h' (by decide)
    · exact ih.1 h'
    · exact absurd h' (by decide)
    · exact ih.2.1 h'
    · exact absurd h' (by decide)
    · exact ih.2.2 h'
  | lt _ ih =>
    refine ⟨?_, ?_, ?_⟩ <;> intro hm <;> rcases List.mem_append.mp hm with h' | h'
    · exact absurd h' (by decide)
    · exact ih.1 h'
    · exact absurd h' (by decide)
    · exact ih.2.1 h'
    · exact absurd h' (by decide)
    · exact ih.2.2 h'
  | gt _ ih =>
    refine ⟨?_, ?_, ?_⟩ <;> intro hm <;> rcases List.mem_append.mp hm with h' | h'
    · exact absurd h' (by decide)
    · exact ih.1 h'
    · exact absurd h' (by decide)
    · exact ih.2.1 h'
    · exact absurd h' (by decide)
    · exact ih.2.2 h'
  | quot _ ih =>
    refine ⟨?_, ?_, ?_⟩ <;> intro hm <;> rcases List.mem_append.mp hm with h' | h'
    · exact absurd h' (by decide)
    · exact ih.1 h'
    · exact absurd h' (by decide)
    · exact ih.2.1 h'
    · exact absurd h' (by decide)
    · exact ih.2.2 h'
  | safe hc1 hc2 hc3 hc4 _ ih =>
    refine ⟨?_, ?_, ?_⟩ <;> intro hm <;> rcases List.mem_cons.mp hm with h' | h'
    · exact hc2 h'.symm
    · exact ih.1 h'
    · exact hc3 h'.symm
    · exact ih.2.1 h'
    · exact hc4 h'.symm
    · exact ih.2.2 h'

theorem esc_no_lt (s : String) : '<' ∉ (esc s).data :=
  (escaped_no_raw (escL_escaped s.data)).1

/-! ## JS string-to-number coercion and money formatting

The source calls Number(amountStr) and rejects non-finite results.  The
coercion is modelled exactly: a finite result is some fraction, while NaN
and the infinities are none.  Rounding of decimal literals to binary
doubles and overflow to infinity are abstracted away; money amounts in
this application fall well inside the range where the two agree.
-/

/-- A finite JS number as an exact fraction: an integer numerator over a
positive denominator (a power of ten out of the literal parser, a power
of two after rounding to a binary64 double). -/
structure JsNum where
  num : Int
  den : ℕ
  deriving DecidableEq, Repr

/-- Whitespace stripped by the JS string-to-number coercion: the
WhiteSpace class (tab, vertical tab, form feed, space, no-break space,
zero-width no-break space and the Unicode space separators) and the
LineTerminator class (line feed, carriage return, line separator,
paragraph separator). -/
def jsWhitespaceChar (c : Char) : Bool :=
  c = ' ' || c = '\t' || c = '\n' || c = '\r' ||
  c = Char.ofNat 0x0B || c = Char.ofNat 0x0C || c = Char.ofNat 0xA0 ||
  c = Char.ofNat 0x1680 ||
  (Char.ofNat 0x2000 ≤ c && c ≤ Char.ofNat 0x200A) ||
  c = Char.ofNat 0x202F || c = Char.ofNat 0x205F || c = Char.ofNat 0x3000 ||
  c = Char.ofNat 0x2028 || c = Char.ofNat 0x2029 || c = Char.ofNat 0xFEFF

/-- Value of a nonempty decimal digit string. -/
def digitsToNat (l : List Char) : ℕ :=
  l.foldl (fun a c => 10 * a + (c.toNat - '0'.toNat)) 0

/-- Value of one digit in radix up to 16. -/
def hexDigitVal (c : Char) : ℕ :=
  if c.isDigit then c.toNat - '0'.toNat
  else if 'a' ≤ c ∧ c ≤ 'f' then c.toNat - 'a'.toNat + 10
  else c.toNat - 'A'.toNat + 10

/-- Digit test for a radix-r integer literal (r is 2, 8 or 16). -/
def isRadixDigit (r : ℕ) (c : Char) : Bool :=
  (c.isDigit && decide (c.toNat - '0'.toNat < r)) ||
  (decide (r = 16) && (('a' ≤ c && c ≤ 'f') || ('A' ≤ c && c ≤ 'F')))

/-- Value of a radix-r digit string. -/
def radixToNat (r : ℕ) (l : List Char) : ℕ :=
  l.foldl (fun a c => r * a + hexDigitVal c) 0

/-- Exponent part of a string decimal literal (after the e), with
optional sign; malformed exponents yield none (NaN). -/
def parseExponent (l : List Char) : Option Int :=
  match l with
  | '+' :: ds => if ds ≠ [] ∧ ds.all Char.isDigit then some (digitsToNat ds : Int) else none
  | '-' :: ds => if ds ≠ [] ∧ ds.all Char.isDigit then some (-(digitsToNat ds : Int)) else none
  | ds => if ds ≠ [] ∧ ds.all Char.isDigit then some (digitsToNat ds : Int) else none

/-- Mantissa of a string decimal literal: digits, digits dot digits,
or dot digits, with at least one digit overall. -/
def parseMantissa (l : List Char) : Option JsNum :=
  let intPart := l.takeWhile Char.isDigit
  let rest := l.drop intPart.length
  match rest with
  | [] => if intPart = [] then none else some ⟨(digitsToNat intPart : Int), 1⟩
  | '.' :: fr =>
    if fr.all Char.isDigit ∧ (intPart ≠ [] ∨ fr ≠ []) then
      some ⟨(digitsToNat intPart * 10 ^ fr.length + digitsToNat fr : ℕ), 10 ^ fr.length⟩
    else none
  | _ => none

/-- Scale a parsed mantissa by ten to a signed exponent. -/
def applyExp (m : JsNum) (ex : Int) : JsNum :=
  if 0 ≤ ex then ⟨m.num * 10 ^ ex.toNat, m.den⟩ else ⟨m.num, m.den * 10 ^ (-ex).toNat⟩

/-- Unsigned decimal string numeric literal; the Infinity literal is
not finite, hence none here. -/
def parseUnsignedDec (l : List Char) : Option JsNum :=
  if l = "Infinity".data then none
  else
    let mant := l.takeWhile (fun c => !(c == 'e' || c == 'E'))
    let rest := l.drop mant.length
    match rest with
    | [] => parseMantissa mant
    | _ :: expChars =>
      match parseMantissa mant, parseExponent expChars with
      | some m, some ex => some (applyExp m ex)
      | _, _ => none

/-- Round num / den (den positive) to the nearest integer, ties to the
even integer. -/
def roundTiesEven (num den : ℕ) : ℕ :=
  let q := num / den
  let r := num % den
  if den < 2 * r then q + 1
  else if 2 * r < den then q
  else if q % 2 = 0 then q else q + 1

/-- Whether two to the e is at most a / b (a and b positive). -/
def binExpLe (a b : ℕ) (e : Int) : Bool :=
  if 0 ≤ e then b * 2 ^ e.toNat ≤ a else b ≤ a * 2 ^ (-e).toNat

/-- Floor base-two logarithm, by repeated halving with explicit fuel so
that it evaluates structurally. -/
def log2fuel : ℕ → ℕ → ℕ
  | 0, _ => 0
  | fuel + 1, n => if 2 ≤ n then log2fuel fuel (n / 2) + 1 else 0

/-- Floor base-two logarithm (zero at zero). -/
def natLog2 (n : ℕ) : ℕ := log2fuel n n

/-- Number of trailing zero bits, by repeated halving with fuel. -/
def ctzFuel : ℕ → ℕ → ℕ
  | 0, _ => 0
  | fuel + 1, n => if n % 2 = 0 ∧ n ≠ 0 then ctzFuel fuel (n / 2) + 1 else 0

/-- Number of trailing zero bits (zero at zero). -/
def natCtz (n : ℕ) : ℕ := ctzFuel n n

/-- The binary exponent of a / b: the unique e with a / b in the
half-open interval from 2^e to 2^(e+1). -/
def binExp (a b : ℕ) : Int :=
  let e0 : Int := (natLog2 a : Int) - (natLog2 b : Int)
  if binExpLe a b e0 then e0 else e0 - 1

/-- Round an exact fraction to the nearest IEEE binary64 double, ties to
even, returning the exact value of that double, or none on overflow to
infinity.  Subnormal magnitudes are rounded at the fixed scale of two to
the minus 1074; a 53-bit carry bumps the exponent, and exponents beyond
1023 overflow. -/
def roundToDouble (q : JsNum) : Option JsNum :=
  if q.num = 0 then some ⟨0, 1⟩
  else
    let a := q.num.natAbs
    let b := q.den
    let sgn : Int := if q.num < 0 then -1 else 1
    let e := binExp a b
    if e < -1022 then
      let n := roundTiesEven (a * 2 ^ 1074) b
      if n = 0 then some ⟨0, 1⟩
      else
        let t := min (natCtz n) 1074
        some ⟨sgn * (n / 2 ^ t : ℕ), 2 ^ (1074 - t)⟩
    else
      let num' := if e ≤ 52 then a * 2 ^ (52 - e).toNat else a
      let den' := if e ≤ 52 then b else b * 2 ^ (e - 52).toNat
      let n := roundTiesEven num' den'
      let n2 : ℕ := if n = 2 ^ 53 then 2 ^ 52 else n
      let e2 : Int := if n = 2 ^ 53 then e + 1 else e
      if 1023 < e2 then none
      else if 52 ≤ e2 then some ⟨sgn * (n2 * 2 ^ (e2 - 52).toNat : ℕ), 1⟩
      else
        let k := (52 - e2).toNat
        let t := min (natCtz n2) k
        some ⟨sgn * (n2 / 2 ^ t : ℕ), 2 ^ (k - t)⟩

/-- Number(s) restricted to finite results: the whitespace-trimmed empty
string is zero; a sign admits only a decimal literal; the hex, octal and
binary integer forms admit no sign; every parsed mathematical value is
rounded to the nearest binary64 double, and an overflow to infinity is
none, like NaN and the Infinity literal. -/
def jsNumber (s : String) : Option JsNum :=
  let t := ((s.data.dropWhile jsWhitespaceChar).reverse.dropWhile jsWhitespaceChar).reverse
  match t with
  | [] => some ⟨0, 1⟩
  | '+' :: r => (parseUnsignedDec r).bind roundToDouble
  | '-' :: r => (parseUnsignedDec r).bind (fun q => roundToDouble ⟨-q.num, q.den⟩)
  | l =>
    if l.take 2 = ['0', 'x'] ∨ l.take 2 = ['0', 'X'] then
      if (l.drop 2) ≠ [] ∧ (l.drop 2).all (isRadixDigit 16) then
        roundToDouble ⟨(radixToNat 16 (l.drop 2) : ℕ), 1⟩
      else none
    else if l.take 2 = ['0', 'o'] ∨ l.take 2 = ['0', 'O'] then
      if (l.drop 2) ≠ [] ∧ (l.drop 2).all (isRadixDigit 8) then
        roundToDouble ⟨(radixToNat 8 (l.drop 2) : ℕ), 1⟩
      else none
    else if l.take 2 = ['0', 'b'] ∨ l.take 2 = ['0', 'B'] then
      if (l.drop 2) ≠ [] ∧ (l.drop 2).all (isRadixDigit 2) then
        roundToDouble ⟨(radixToNat 2 (l.drop 2) : ℕ), 1⟩
      else none
    else (parseUnsignedDec l).bind roundToDouble

/-- Strip trailing decimal zeros (with fuel). -/
def stripZeros : ℕ → ℕ → ℕ
  | 0, v => v
  | fuel + 1, v => if v % 10 = 0 ∧ v ≠ 0 then stripZeros fuel (v / 10) else v

/-- The shortest-round-trip search of the ToString algorithm for an
integer double magnitude m with n decimal digits: for ascending digit
counts k, round m to k leading digits (the two nearest candidates) and
return the first rounded decimal value whose nearest double is m again,
preferring the closer candidate and an even significand on a tie. -/
def stsLoop (m n : ℕ) : ℕ → ℕ → Option ℕ
  | 0, _ => none
  | fuel + 1, k =>
    let p := 10 ^ (n - k)
    let s0 := m / p
    let r := m % p
    let ok : ℕ → Bool := fun v =>
      v ≠ 0 && decide (roundToDouble ⟨(v : ℕ), 1⟩ = some ⟨(m : ℕ), 1⟩)
    let c0 := ok (s0 * p)
    let c1 := ok ((s0 + 1) * p)
    if c0 && c1 then
      some (if 2 * r < p then s0 * p
        else if p < 2 * r then (s0 + 1) * p
        else if s0 % 2 = 0 then s0 * p else (s0 + 1) * p)
    else if c0 then some (s0 * p)
    else if c1 then some ((s0 + 1) * p)
    else stsLoop m n fuel (k + 1)

/-- ToString of an integer double magnitude of at least ten to the 21:
the shortest decimal that rounds back to it, rendered in exponential
notation (first digit, optional dot and remaining digits, e+, decimal
exponent). -/
def jsToStringBig (m : ℕ) : String :=
  let n := (Nat.repr m).length
  match stsLoop m n (n + 1) 1 with
  | some v =>
    let nv := (Nat.repr v).length
    let ds := Nat.repr (stripZeros nv v)
    (if ds.length = 1 then ds else ds.take 1 ++ "." ++ ds.drop 1) ++
      "e+" ++ Nat.repr (nv - 1)
  | none => ""

/-- n.toFixed(2) on the exact double value: the sign, then for a
magnitude of at least ten to the 21 the ToString rendering, otherwise
the magnitude rounded to a whole number of hundredths (half upward, the
floor of the magnitude times 100 plus one half) printed as the integer
part, a dot, and exactly two digits. -/
def toFixed2 (q : JsNum) : String :=
  let sign : String := if q.num < 0 then "-" else ""
  if 10 ^ 21 * q.den ≤ q.num.natAbs then
    sign ++ jsToStringBig (q.num.natAbs / q.den)
  else
    let n : ℕ := (200 * q.num.natAbs + q.den) / (2 * q.den)
    sign ++ toString (n / 100) ++ "." ++ ⟨[Nat.digitChar (n / 10 % 10), Nat.digitChar (n % 10)]⟩

/-- Source constant symbols (currency code to prefix).  The stored
source shows the euro and pound signs through a text-encoding artifact;
they are written here directly. -/
def symbols : List (String × String) :=
  [("USD", "$"), ("EUR", "€"), ("GBP", "£"), ("HUF", "Ft"), ("CAD", "$"), ("AUD", "$")]

/-- The JS or-else on an optional string: the right operand when the
left is absent or empty (falsy). -/
def jsOrString (o : Option String) (dflt : String) : String :=
  match o with
  | some s => if s = "" then dflt else s
  | none => dflt

/-- The properties every JS object literal inherits from the Object
prototype, with the string each value yields when interpolated into a
template literal: the standard built-in function source text for the
methods, and the object tag for the prototype accessor.  All the values
are truthy. -/
def protoProps : List (String × String) :=
  [("constructor", "function Object() \x7b [native code] \x7d"),
   ("hasOwnProperty", "function hasOwnProperty() \x7b [native code] \x7d"),
   ("isPrototypeOf", "function isPrototypeOf() \x7b [native code] \x7d"),
   ("propertyIsEnumerable", "function propertyIsEnumerable() \x7b [native code] \x7d"),
   ("toLocaleString", "function toLocaleString() \x7b [native code] \x7d"),
   ("toString", "function toString() \x7b [native code] \x7d"),
   ("valueOf", "function valueOf() \x7b [native code] \x7d"),
   ("__defineGetter__", "function __defineGetter__() \x7b [native code] \x7d"),
   ("__defineSetter__", "function __defineSetter__() \x7b [native code] \x7d"),
   ("__lookupGetter__", "function __lookupGetter__() \x7b [native code] \x7d"),
   ("__lookupSetter__", "function __lookupSetter__() \x7b [native code] \x7d"),
   ("__proto__", "[object Object]")]

/-- JS property read on an object literal: an own property first, then
the inherited Object-prototype properties. -/
def objLookup (own : List (String × String)) (key : String) : Option String :=
  match own.lookup key with
  | some v => some v
  | none => protoProps.lookup key

/-- Source function formatMoney (later revision with the symbol table).
The symbols indexing is a JS property read, so an absent own key falls
through to the Object prototype before the or-else takes the raw
code. -/
def formatMoney (amountStr currencyCode : String) : String :=
  match jsNumber amountStr with
  | none => ""
  | some n => jsOrString (objLookup symbols currencyCode) currencyCode ++ toFixed2 n

/-- Modelled from the spec: the currency symbol for the six mapped
codes, any other code printed as the raw code prefix. -/
def symbolOrCode (c : String) : String :=
  if c = "USD" then "$"
  else if c = "EUR" then "€"
  else if c = "GBP" then "£"
  else if c = "HUF" then "Ft"
  else if c = "CAD" then "$"
  else if c = "AUD" then "$"
  else c

/-- The string ends in a dot followed by exactly two decimal digits. -/
def twoDecimals (s : String) : Prop :=
  ∃ ip c1 c2, s = ip ++ "." ++ ⟨[c1, c2]⟩ ∧ c1.isDigit ∧ c2.isDigit

theorem digitChar_isDigit (k : ℕ) (h : k < 10) : (Nat.digitChar k).isDigit := by
  interval_cases k <;> decide

theorem toFixed2_twoDecimals (q : JsNum) (h : q.num.natAbs < 10 ^ 21 * q.den) :
    twoDecimals (toFixed2 q) := by
  refine ⟨(if q.num < 0 then "-" else "") ++
      toString ((200 * q.num.natAbs + q.den) / (2 * q.den) / 100),
      Nat.digitChar ((200 * q.num.natAbs + q.den) / (2 * q.den) / 10 % 10),
      Nat.digitChar ((200 * q.num.natAbs + q.den) / (2 * q.den) % 10), ?_, ?_, ?_⟩
  · simp only [toFixed2]
    rw [if_neg (by omega : ¬ 10 ^ 21 * q.den ≤ q.num.natAbs)]
  · exact digitChar_isDigit _ (Nat.mod_lt _ (by norm_num))
  · exact digitChar_isDigit _ (Nat.mod_lt _ (by norm_num))

theorem lookup_symbolOrCode (c : String) (hp : protoProps.lookup c = none) :
    jsOrString (objLookup symbols c) c = symbolOrCode c := by
  by_cases h1 : c = "USD"
  · subst h1; rfl
  by_cases h2 : c = "EUR"
  · subst h2; rfl
  by_cases h3 : c = "GBP"
  · subst h3; rfl
  by_cases h4 : c = "HUF"
  · subst h4; rfl
  by_cases h5 : c = "CAD"
  · subst h5; rfl
  by_cases h6 : c = "AUD"
  · subst h6; rfl
  have hl : symbols.lookup c = none := by
    have e1 : (c == "USD") = false := beq_eq_false_iff_ne.mpr h1
    have e2 : (c == "EUR") = false := beq_eq_false_iff_ne.mpr h2
    have e3 : (c == "GBP") = false := beq_eq_false_iff_ne.mpr h3
    have e4 : (c == "HUF") = false := beq_eq_false_iff_ne.mpr h4
    have e5 : (c == "CAD") = false := beq_eq_false_iff_ne.mpr h5
    have e6 : (c == "AUD") = false := beq_eq_false_iff_ne.mpr h6
    simp [symbols, List.lookup, e1, e2, e3, e4, e5, e6]
  have ho : objLookup symbols c = none := by
    simp [objLookup, hl, hp]
  rw [ho]
  simp [jsOrString, symbolOrCode, h1, h2, h3, h4, h5, h6]

/-! ## Renderer (source function buildHtml, later revision)

The fixed template text between the interpolation points is split into
named segments; the trims of the template literals are applied to their
fixed edges, so each segment is the exact text emitted there.
-/

/-- A normalised product display record as produced by the lister. -/
structure ProductRecord where
  title : String
  url : String
  price : String
  imageUrl : String
  imageAlt : String

def seg1 : String := "<a href=\""

def seg2 : String :=
  "\" style=\"text-decoration:none;color:inherit;display:block;\">\n  <div style=\"font-family:Arial,sans-serif;font-size:14px;line-height:1.4;color:#111;\">\n    <div style=\"border:1px solid #eee;border-radius:12px;padding:14px 16px;background:#fff;\">\n      <div style=\"font-size:16px;font-weight:700;\">"

def seg3a : String := "</div>\n      "

def seg3b : String := "<div style=\"color:#666;font-size:12px;margin-top:2px;\">"

def seg4a : String := "</div>"

def seg4b : String :=
  "\n\n      <table role=\"presentation\" cellpadding=\"0\" cellspacing=\"0\" style=\"width:100%;border-collapse:collapse;margin-top:10px;\">\n        <tbody>\n          "

def seg5 : String := "\n        </tbody>\n      </table>\n    </div>\n  </div>\n</a>"

def rowSeg1 : String :=
  "<tr>\n        <td style=\"padding:10px 0;border-top:1px solid #eee;vertical-align:top;width:68px;\">\n          "

def rowSeg2 : String :=
  "\n        </td>\n        <td style=\"padding:10px 0;border-top:1px solid #eee;vertical-align:top;\">\n          <div style=\"color:#111;font-weight:600;\">\n            "

def rowSeg3 : String := "\n          </div>\n          "

def rowSeg4 : String := "\n        </td>\n      </tr>"

def imgSeg1 : String := "<img src=\""

def imgSeg2 : String := "\" alt=\""

def imgSeg3 : String :=
  "\" width=\"56\" height=\"56\"\n              style=\"display:block;border-radius:10px;object-fit:cover;border:1px solid #eee;\">"

def imgPlaceholder : String :=
  "<div style=\"width:56px;height:56px;border-radius:10px;background:#f3f3f3;border:1px solid #eee;\"></div>"

/-- The img constant of the row callback: the image tag when the image
URL is truthy (non-empty), the fixed placeholder block otherwise.  The
URL is interpolated as-is; only the alt text goes through esc. -/
def imgPiece (imageUrl imageAlt : String) : String :=
  if imageUrl = "" then imgPlaceholder
  else imgSeg1 ++ imageUrl ++ imgSeg2 ++ esc imageAlt ++ imgSeg3

def priceSeg1 : String := "<div style=\"margin-top:4px;color:#666;font-size:12px;\">"

def priceSeg2 : String := "</div>"

/-- The price constant of the row callback: the price line when the
price string is truthy (non-empty), nothing otherwise. -/
def pricePiece (price : String) : String :=
  if price = "" then "" else priceSeg1 ++ esc price ++ priceSeg2

/-- One product row of the table. -/
def rowHtml (p : ProductRecord) : String :=
  rowSeg1 ++ imgPiece p.imageUrl p.imageAlt ++ rowSeg2 ++ esc p.title ++
    rowSeg3 ++ pricePiece p.price ++ rowSeg4

/-- The single fallback row for an empty product list. -/
def emptyRow : String :=
  "<tr>\n      <td style=\"padding:10px 0;color:#666;\">No products found.</td>\n    </tr>"

/-- The interpolated count text: the length, the word product, and the
plural s unless the length is exactly one. -/
def countLine (n : ℕ) : String :=
  toString n ++ " product" ++ (if n = 1 then "" else "s")

/-- Source function buildHtml (later revision: whole card wrapped in one
anchor, title line, count line with singular and plural, table body that
falls back to the single empty row when the length is falsy). -/
def buildHtml (collectionTitle : String) (products : List ProductRecord)
    (collectionLink : String) : String :=
  let rows := String.intercalate "\n" (products.map rowHtml)
  seg1 ++ collectionLink ++ seg2 ++ esc collectionTitle ++ seg3a ++ seg3b ++
    countLine products.length ++
    seg4a ++ seg4b ++ (if products.length = 0 then emptyRow else rows) ++ seg5

/-! ## Counting pattern occurrences in character lists -/

/-- Number of positions at which the pattern p starts an occurrence. -/
def countOcc (p : List Char) : List Char → ℕ
  | [] => 0
  | c :: l => (if p.isPrefixOf (c :: l) then 1 else 0) + countOcc p l

theorem isPrefixOf_append_left (p : List Char) :
    ∀ (x : List Char) (y : List Char), p.length ≤ x.length →
      p.isPrefixOf (x ++ y) = p.isPrefixOf x := by
  induction p with
  | nil => intro x y _; simp [List.isPrefixOf]
  | cons a p ih =>
    intro x y h
    cases x with
    | nil => simp at h
    | cons b x =>
      have h' : p.length ≤ x.length := by
        simp only [List.length_cons] at h; omega
      show (a == b && p.isPrefixOf (x ++ y)) = (a == b && p.isPrefixOf x)
      rw [ih x y h']

theorem countOcc_no_head (q r : List Char) :
    ∀ (m : List Char), '<' ∉ m →
      countOcc ('<' :: q) (m ++ r) = countOcc ('<' :: q) r := by
  intro m
  induction m with
  | nil => intro _; rfl
  | cons c m ih =>
    intro hm
    have hm' : '<' ∉ m := fun h => hm (List.mem_cons.mpr (Or.inr h))
    have hne : ('<' == c) = false :=
      beq_eq_false_iff_ne.mpr (fun h => hm (List.mem_cons.mpr (Or.inl h)))
    have hfalse : (('<' :: q).isPrefixOf (c :: (m ++ r))) = false := by
      show (('<' == c) && q.isPrefixOf (m ++ r)) = false
      rw [hne]
      rfl
    show (if ('<' :: q).isPrefixOf (c :: (m ++ r)) then 1 else 0) +
      countOcc ('<' :: q) (m ++ r) = countOcc ('<' :: q) r
    rw [hfalse, ih hm']
    simp

theorem countOcc_split (q m r : List Char) :
    ∀ (A : List Char),
      (∀ s ∈ A.tails, s.head? = some '<' → q.length + 1 ≤ s.length) →
      '<' ∉ m →
      countOcc ('<' :: q) (A ++ (m ++ r)) =
        countOcc ('<' :: q) A + countOcc ('<' :: q) r := by
  intro A
  induction A with
  | nil => intro _ hm; simpa [countOcc] using countOcc_no_head q r m hm
  | cons c A ih =>
    intro hA hm
    have hA' : ∀ s ∈ A.tails, s.head? = some '<' → q.length + 1 ≤ s.length := by
      intro s hs hh
      exact hA s (by rw [List.tails_cons]; exact List.mem_cons_of_mem _ hs) hh
    have hhead : (('<' :: q).isPrefixOf (c :: (A ++ (m ++ r)))) =
        (('<' :: q).isPrefixOf (c :: A)) := by
      by_cases hc : c = '<'
      · subst hc
        have hlen : q.length ≤ A.length := by
          have h2 := hA ('<' :: A)
            (by rw [List.tails_cons]; exact List.mem_cons_self _ _) rfl
          simpa using h2
        show (('<' == '<') && q.isPrefixOf (A ++ (m ++ r))) =
          (('<' == '<') && q.isPrefixOf A)
        rw [isPrefixOf_append_left q A (m ++ r) hlen]
      · have hne : ('<' == c) = false := beq_eq_false_iff_ne.mpr (fun h => hc h.symm)
        show (('<' == c) && q.isPrefixOf (A ++ (m ++ r))) = (('<' == c) && q.isPrefixOf A)
        rw [hne]
        rfl
    show (if ('<' :: q).isPrefixOf (c :: (A ++ (m ++ r))) then 1 else 0) +
        countOcc ('<' :: q) (A ++ (m ++ r)) =
      (if ('<' :: q).isPrefixOf (c :: A) then 1 else 0) +
        countOcc ('<' :: q) A + countOcc ('<' :: q) r
    rw [hhead, ih hA' hm]
    omega

/-! ## API client and run pipeline -/

/-- res.ok of the Fetch response: status in the 2xx range. -/
def resOk (status : ℕ) : Bool := 200 ≤ status && status ≤ 299

/-- Model of JSON.stringify on the parsed GraphQL errors array, whose
entries are kept abstractly as their serialized texts. -/
def stringifyErrors (l : List String) : String :=
  "[" ++ String.intercalate "," l ++ "]"

/-- Source function gql after the fetch returns: a non-2xx status fails
with the HTTP status and the raw body text; otherwise a present
non-empty errors array fails with the serialized list; otherwise the
data payload is returned.  The response arrives pre-parsed; body parse
failures are outside this model. -/
def gql {D : Type} (status : ℕ) (body : String) (errors : Option (List String))
    (dat : D) : Except String D :=
  if resOk status = false then
    Except.error ("HTTP " ++ toString status ++ ": " ++ body)
  else
    match errors with
    | some es =>
      if es.length ≠ 0 then
        Except.error ("GraphQL errors: " ++ stringifyErrors es)
      else Except.ok dat
    | none => Except.ok dat

/-- A field-level validation error reported by the write mutation. -/
structure UserError where
  field : String
  message : String
  deriving DecidableEq, Repr

/-- Model of JSON.stringify for the userErrors array. -/
def stringifyUserErrors (l : List UserError) : String :=
  "[" ++ String.intercalate ","
    (l.map (fun u =>
      "\x7b\"field\":\"" ++ u.field ++ "\",\"message\":\"" ++ u.message ++ "\"\x7d")) ++ "]"

/-- One remote call per pipeline step, in issue order. -/
inductive ApiCall
  | collectionByHandle
  | productsQuery
  | shopQuery
  | metafieldsSet
  deriving DecidableEq, Repr

/-- The featuredImage object of a product node; url and altText may each
be null. -/
structure FeaturedImage where
  url : Option String
  altText : Option String

/-- A raw product node as returned by the products query. -/
structure ProductNode where
  title : Option String
  handle : String
  onlineStoreUrl : Option String
  featuredImage : Option FeaturedImage
  minVariantPrice : Option (String × String)

/-- The per-node normalisation inside getProductsInCollection: title
falls back to empty, the URL to the synthesized product URL, the price
to empty when no minimum variant price object exists, the image URL to
empty, and the alt text first to the title and then to empty. -/
def normalize (shopSub : String) (p : ProductNode) : ProductRecord :=
  { title := jsOrString p.title ""
    url := jsOrString p.onlineStoreUrl
      ("https://" ++ shopSub ++ ".myshopify.com/products/" ++ p.handle)
    price :=
      match p.minVariantPrice with
      | some (amount, code) => formatMoney amount code
      | none => ""
    imageUrl := jsOrString (p.featuredImage.bind FeaturedImage.url) ""
    imageAlt := jsOrString (p.featuredImage.bind FeaturedImage.altText)
      (jsOrString p.title "") }

/-- The pre-parsed outcomes of the four remote interactions, each
already lifted through gql: transport or GraphQL failure as error, the
data payload as ok.  The collection lookup payload is the optional pair
of title and composite id; the write payload is the optional userErrors
list. -/
structure Env where
  collectionResp : Except String (Option (String × String))
  productsResp : Except String (List ProductNode)
  shopResp : Except String String
  writeResp : Except String (Option (List UserError))

/-- Source: the numeric id is the last slash-separated segment of the
composite id. -/
def lastSegment (id : String) : String := (id.splitOn "/").getLastD ""

/-- Source function getCollectionNumericId: a null collection in a
successful lookup is the not-found failure; otherwise the title and the
numeric id are extracted. -/
def getCollectionNumericId (resp : Except String (Option (String × String)))
    (h : String) : Except String (String × String) :=
  match resp with
  | Except.error e => Except.error e
  | Except.ok none => Except.error ("Collection not found: " ++ h)
  | Except.ok (some (title, id)) => Except.ok (title, lastSegment id)

/-- The main sequential pipeline, also recording which remote calls were
issued, in order.  Each call is recorded before its outcome is
inspected; the write mutation reports its userErrors after the call has
been made. -/
def runMain (env : Env) (shopSub h : String) : Except String Unit × List ApiCall :=
  match getCollectionNumericId env.collectionResp h with
  | Except.error e => (Except.error e, [ApiCall.collectionByHandle])
  | Except.ok (title, _numericId) =>
    match env.productsResp with
    | Except.error e =>
      (Except.error e, [ApiCall.collectionByHandle, ApiCall.productsQuery])
    | Except.ok nodes =>
      let products := nodes.map (normalize shopSub)
      let collectionLink := "https://" ++ shopSub ++ ".myshopify.com/collections/" ++ h
      let _html := buildHtml title products collectionLink
      match env.shopResp with
      | Except.error e =>
        (Except.error e,
          [ApiCall.collectionByHandle, ApiCall.productsQuery, ApiCall.shopQuery])
      | Except.ok _shopId =>
        match env.writeResp with
        | Except.error e =>
          (Except.error e,
            [ApiCall.collectionByHandle, ApiCall.productsQuery, ApiCall.shopQuery,
              ApiCall.metafieldsSet])
        | Except.ok ues =>
          if (ues.getD []).length ≠ 0 then
            (Except.error
              ("metafieldsSet userErrors: " ++ stringifyUserErrors (ues.getD [])),
              [ApiCall.collectionByHandle, ApiCall.productsQuery, ApiCall.shopQuery,
                ApiCall.metafieldsSet])
          else
            (Except.ok (),
              [ApiCall.collectionByHandle, ApiCall.productsQuery, ApiCall.shopQuery,
                ApiCall.metafieldsSet])

/-! ## Structural lemmas about the renderer -/

theorem data_append (a b : String) : (a ++ b).data = a.data ++ b.data := rfl

theorem countLine_one : countLine 1 = "1 product" := rfl

theorem countLine_zero : countLine 0 = "0 products" := rfl

theorem intercalate_singleton (s x : String) : String.intercalate s [x] = x := rfl

theorem buildHtml_singleton (ct link : String) (p : ProductRecord) :
    buildHtml ct [p] link =
      seg1 ++ link ++ seg2 ++ esc ct ++ seg3a ++ seg3b ++ countLine 1 ++ seg4a ++
      seg4b ++ rowHtml p ++ seg5 := by
  simp [buildHtml, intercalate_singleton]

theorem buildHtml_empty (ct link : String) :
    buildHtml ct [] link =
      seg1 ++ link ++ seg2 ++ esc ct ++ seg3a ++ seg3b ++ countLine 0 ++ seg4a ++
      seg4b ++ emptyRow ++ seg5 := by
  simp [buildHtml]

/-! ## Claim theorems -/

/-- C2: for every date, the week-number function computes the ISO-8601
week number as defined by the reference rule (shift to the Thursday of
the Monday-based week, then ceil of the day-of-year of that Thursday
over 7 with Jan 1 as day 1); in particular 2024-12-31 is week 1 (of
2025) and 2024-01-01 is week 1 (of 2024). -/
theorem isoWeekNumber_correct :
    (∀ e : Int, isoWeekNumberUTC e = isoWeekSpec e) ∧
    isoWeekNumberUTC (daysFromCivil 2024 12 31) = 1 ∧
    isoWeekNumberUTC (daysFromCivil 2024 1 1) = 1 :=
  ⟨isoWeek_eq_spec, by decide, by decide⟩

/-- C6 counterexample: the first positional argument can be the empty
string, an explicitly supplied handle that the resolver does not return
verbatim: the falsy check of the JS or-operator discards it and the
computed default week handle is used instead. -/
theorem handle_empty_not_verbatim :
    handle (some "") 0 = "week-2-plants" ∧ "week-2-plants" ≠ ("" : String) :=
  ⟨by decide, by decide⟩

/-- C6 (amended): every non-empty explicitly supplied collection handle
is returned verbatim by the resolver, and the computed default
week-N-plants handle is not used. -/
theorem handle_nonempty_verbatim (s : String) (nowDay : Int) (h : s ≠ "") :
    handle (some s) nowDay = s := by
  simp [handle, h]

theorem handle_nonempty_verbatim_witness :
    ("week-4-plants" : String) ≠ "" ∧
    handle (some "week-4-plants") 0 = "week-4-plants" :=
  ⟨by decide, handle_nonempty_verbatim "week-4-plants" 0 (by decide)⟩

/-- C7: the API client fails with an error carrying the HTTP status and
the raw body whenever the status is not 2xx; fails with an error
carrying the serialized GraphQL error list whenever the status is 2xx
but the errors array is present and non-empty; and otherwise returns
the data payload. -/
theorem gql_error_handling {D : Type} (status : ℕ) (body : String)
    (errors : Option (List String)) (dat : D) :
    (resOk status = false →
      gql status body errors dat =
        Except.error ("HTTP " ++ toString status ++ ": " ++ body)) ∧
    (∀ es, resOk status = true → errors = some es → es ≠ [] →
      gql status body errors dat =
        Except.error ("GraphQL errors: " ++ stringifyErrors es)) ∧
    (resOk status = true → (errors = none ∨ errors = some []) →
      gql status body errors dat = Except.ok dat) := by
  refine ⟨?_, ?_, ?_⟩
  · intro h
    simp [gql, h]
  · intro es hok hes hne
    subst hes
    have hlen : es.length ≠ 0 := by
      intro h0
      exact hne (List.length_eq_zero.mp h0)
    simp [gql, hok, hlen]
  · intro hok h
    rcases h with h | h <;> subst h <;> simp [gql, hok]

theorem gql_error_handling_witness :
    gql (D := ℕ) 500 "oops" none 7 = Except.error "HTTP 500: oops" ∧
    gql (D := ℕ) 200 "ok" (some ["boom"]) 7 =
      Except.error ("GraphQL errors: " ++ stringifyErrors ["boom"]) ∧
    gql (D := ℕ) 200 "ok" (some []) 7 = Except.ok 7 :=
  ⟨(gql_error_handling 500 "oops" none 7).1 (by decide),
   (gql_error_handling 200 "ok" (some ["boom"]) 7).2.1 ["boom"] (by decide) rfl
     (by decide),
   (gql_error_handling 200 "ok" (some []) 7).2.2 (by decide) (Or.inr rfl)⟩

/-- C8: when the collection lookup succeeds but returns no matching
collection, the run fails with the not-found error naming the handle,
and the metafield write mutation is never issued: the call trace stops
at the lookup. -/
theorem notFound_stops_run (env : Env) (shopSub h : String)
    (hc : env.collectionResp = Except.ok none) :
    runMain env shopSub h =
      (Except.error ("Collection not found: " ++ h), [ApiCall.collectionByHandle]) ∧
    ApiCall.metafieldsSet ∉ (runMain env shopSub h).2 := by
  have h1 : runMain env shopSub h =
      (Except.error ("Collection not found: " ++ h), [ApiCall.collectionByHandle]) := by
    simp [runMain, getCollectionNumericId, hc]
  refine ⟨h1, ?_⟩
  rw [h1]
  show ApiCall.metafieldsSet ∉ [ApiCall.collectionByHandle]
  decide

theorem notFound_stops_run_witness :
    (Env.mk (Except.ok none) (Except.ok []) (Except.ok "gid") (Except.ok none)).collectionResp
        = Except.ok none ∧
    runMain (Env.mk (Except.ok none) (Except.ok []) (Except.ok "gid") (Except.ok none))
        "flwr-farm" "week-4-plants" =
      (Except.error ("Collection not found: " ++ "week-4-plants"),
        [ApiCall.collectionByHandle]) :=
  ⟨rfl, (notFound_stops_run _ "flwr-farm" "week-4-plants" rfl).1⟩

/-- C9: a metafield-write response whose userErrors list is non-empty
fails the run with an error carrying the serialized field and message
pairs, even though the transport reported success; the run succeeds
past the write exactly when userErrors is empty or absent. -/
theorem userErrors_fail_run (env : Env) (shopSub h : String) :
    (∀ c ns sid ues, env.collectionResp = Except.ok (some c) →
      env.productsResp = Except.ok ns → env.shopResp = Except.ok sid →
      env.writeResp = Except.ok (some ues) → ues ≠ [] →
      (runMain env shopSub h).1 =
        Except.error ("metafieldsSet userErrors: " ++ stringifyUserErrors ues)) ∧
    (∀ c ns sid, env.collectionResp = Except.ok (some c) →
      env.productsResp = Except.ok ns → env.shopResp = Except.ok sid →
      (env.writeResp = Except.ok none ∨ env.writeResp = Except.ok (some [])) →
      (runMain env shopSub h).1 = Except.ok ()) := by
  constructor
  · intro c ns sid ues h1 h2 h3 h4 h5
    obtain ⟨ct, cid⟩ := c
    have hlen : ues.length ≠ 0 := by
      intro h0
      exact h5 (List.length_eq_zero.mp h0)
    simp [runMain, getCollectionNumericId, h1, h2, h3, h4, hlen]
  · intro c ns sid h1 h2 h3 h4
    obtain ⟨ct, cid⟩ := c
    rcases h4 with h4 | h4 <;>
      simp [runMain, getCollectionNumericId, h1, h2, h3, h4]

theorem userErrors_fail_run_witness :
    (runMain
      (Env.mk (Except.ok (some ("Week 4", "gid://shopify/Collection/42")))
        (Except.ok []) (Except.ok "gid://shopify/Shop/1")
        (Except.ok (some [UserError.mk "value" "is invalid"])))
      "flwr-farm" "week-4-plants").1 =
      Except.error ("metafieldsSet userErrors: " ++
        stringifyUserErrors [UserError.mk "value" "is invalid"]) ∧
    (runMain
      (Env.mk (Except.ok (some ("Week 4", "gid://shopify/Collection/42")))
        (Except.ok []) (Except.ok "gid://shopify/Shop/1") (Except.ok (some [])))
      "flwr-farm" "week-4-plants").1 = Except.ok () :=
  ⟨(userErrors_fail_run _ "flwr-farm" "week-4-plants").1
      ("Week 4", "gid://shopify/Collection/42") [] "gid://shopify/Shop/1"
      [UserError.mk "value" "is invalid"] rfl rfl rfl rfl (by decide),
   (userErrors_fail_run _ "flwr-farm" "week-4-plants").2
      ("Week 4", "gid://shopify/Collection/42") [] "gid://shopify/Shop/1"
      rfl rfl rfl (Or.inr rfl)⟩

theorem formatMoney_none (a c : String) (h : jsNumber a = none) :
    formatMoney a c = "" := by
  simp [formatMoney, h]

theorem formatMoney_some (a c : String) (q : JsNum) (h : jsNumber a = some q)
    (hp : protoProps.lookup c = none) :
    formatMoney a c = symbolOrCode c ++ toFixed2 q := by
  simp [formatMoney, h, lookup_symbolOrCode c hp]

set_option maxRecDepth 40000 in
/-- C3 counterexample: the claim fails on the program at concrete
inputs.  An amount of 1e21 coerces to a finite double of magnitude ten
to the 21, which toFixed renders in exponential notation, so the output
has no two-decimal suffix; and a currency code naming an inherited
Object-prototype property (toString) finds a truthy inherited value, so
the prefix is neither a symbol nor the raw code. -/
theorem formatMoney_counterexample :
    formatMoney "1e21" "USD" = "$1e+21" ∧
    ¬ twoDecimals "1e+21" ∧
    formatMoney "1" "toString" =
      "function toString() \x7b [native code] \x7d1.00" ∧
    formatMoney "1" "toString" ≠ "toString" ++ "1.00" := by
  refine ⟨by decide, ?_, by decide, by decide⟩
  rintro ⟨ip, c1, c2, heq, -, -⟩
  have h2 : ip.data ++ ('.' :: [c1, c2]) = ['1', 'e', '+', '2', '1'] := by
    have h3 := congrArg String.data heq
    simpa [data_append, List.append_assoc] using h3.symm
  have hmem : '.' ∈ (['1', 'e', '+', '2', '1'] : List Char) := by
    rw [← h2]
    exact List.mem_append.mpr (Or.inr (List.mem_cons_self _ _))
  exact absurd hmem (by decide)

/-- C3 (amended): for every amount string and every currency code that
does not name an inherited Object-prototype property (as no ISO
currency code does), the price formatter returns the currency symbol
for the six mapped codes and the raw code as prefix for any other,
immediately followed by the formatted amount, which has exactly two
decimals whenever the double magnitude is below ten to the 21; and
whenever the amount does not coerce to a finite double (including an
overflow to infinity), it returns the empty string, so the renderer
omits that price line and the run does not fail. -/
theorem formatMoney_amended (a c : String) :
    (jsNumber a = none → formatMoney a c = "") ∧
    (∀ q, jsNumber a = some q → protoProps.lookup c = none →
      formatMoney a c = symbolOrCode c ++ toFixed2 q ∧
      (q.num.natAbs < 10 ^ 21 * q.den → twoDecimals (toFixed2 q))) := by
  refine ⟨formatMoney_none a c, ?_⟩
  intro q h hp
  exact ⟨formatMoney_some a c q h hp, toFixed2_twoDecimals q⟩

set_option maxRecDepth 40000 in
theorem formatMoney_amended_witness :
    formatMoney "abc" "USD" = "" ∧
    formatMoney "1e400" "USD" = "" ∧
    formatMoney "7" "XYZ" = symbolOrCode "XYZ" ++ toFixed2 (JsNum.mk 7 1) :=
  ⟨(formatMoney_amended "abc" "USD").1 (by decide),
   (formatMoney_amended "1e400" "USD").1 (by decide),
   ((formatMoney_amended "7" "XYZ").2 (JsNum.mk 7 1) (by decide) (by decide)).1⟩

/-- C5: for every product sequence of length exactly one, the rendered
output carries the full count div with the singular text 1 product
(immediately closed by the div, so not 1 products). -/
theorem singular_count_line (ct link : String) (p : ProductRecord) :
    ("<div style=\"color:#666;font-size:12px;margin-top:2px;\">1 product</div>").data
      <:+: (buildHtml ct [p] link).data := by
  have hc : ("<div style=\"color:#666;font-size:12px;margin-top:2px;\">1 product</div>" :
      String).data = (seg3b ++ countLine 1 ++ seg4a).data := rfl
  rw [hc, buildHtml_singleton]
  exact ⟨(seg1 ++ link ++ seg2 ++ esc ct ++ seg3a).data,
    (seg4b ++ rowHtml p ++ seg5).data, by simp [data_append, List.append_assoc]⟩

set_option maxRecDepth 40000 in
/-- C4: for the empty product sequence the rendered output contains
exactly one table row opening, the fixed No-products-found row appears
in it, and the count line reads 0 products.  The link is a URL and so
contains no raw less-than character. -/
theorem empty_render (ct link : String) (hlink : '<' ∉ link.data) :
    countOcc "<tr".data (buildHtml ct [] link).data = 1 ∧
    emptyRow.data <:+: (buildHtml ct [] link).data ∧
    ("<div style=\"color:#666;font-size:12px;margin-top:2px;\">0 products</div>").data
      <:+: (buildHtml ct [] link).data := by
  have hd : (buildHtml ct [] link).data =
      seg1.data ++ (link.data ++ (seg2.data ++ ((esc ct).data ++
        (seg3a ++ seg3b ++ countLine 0 ++ seg4a ++ seg4b ++ emptyRow ++ seg5).data))) := by
    rw [buildHtml_empty]
    simp [data_append, List.append_assoc]
  refine ⟨?_, ?_, ?_⟩
  · rw [hd]
    show countOcc ('<' :: ['t', 'r']) (seg1.data ++ (link.data ++ (seg2.data ++
      ((esc ct).data ++
        (seg3a ++ seg3b ++ countLine 0 ++ seg4a ++ seg4b ++ emptyRow ++ seg5).data)))) = 1
    rw [countOcc_split ['t', 'r'] link.data _ seg1.data (by decide) hlink]
    rw [countOcc_split ['t', 'r'] (esc ct).data _ seg2.data (by decide) (esc_no_lt ct)]
    decide
  · rw [buildHtml_empty]
    exact ⟨(seg1 ++ link ++ seg2 ++ esc ct ++ seg3a ++ seg3b ++ countLine 0 ++ seg4a ++
      seg4b).data, seg5.data, by simp [data_append, List.append_assoc]⟩
  · have hc : ("<div style=\"color:#666;font-size:12px;margin-top:2px;\">0 products</div>" :
        String).data = (seg3b ++ countLine 0 ++ seg4a).data := rfl
    rw [hc, buildHtml_empty]
    exact ⟨(seg1 ++ link ++ seg2 ++ esc ct ++ seg3a).data,
      (seg4b ++ emptyRow ++ seg5).data, by simp [data_append, List.append_assoc]⟩

set_option maxRecDepth 40000 in
theorem empty_render_witness :
    '<' ∉ ("https://flwr-farm.myshopify.com/collections/week-42-plants" : String).data ∧
    countOcc "<tr".data
      (buildHtml "Week 42 Plants" []
        "https://flwr-farm.myshopify.com/collections/week-42-plants").data = 1 :=
  ⟨by decide,
   (empty_render "Week 42 Plants"
     "https://flwr-farm.myshopify.com/collections/week-42-plants" (by decide)).1⟩

/-- C10 counterexample: the claim fails on the program at a concrete
input.  For an empty amount and a currency code naming an inherited
Object-prototype property (toString), the price formatter returns the
stringified inherited value followed by 0.00, which is neither a
currency symbol nor the raw code followed by 0.00. -/
theorem whitespace_price_counterexample :
    formatMoney "" "toString" =
      "function toString() \x7b [native code] \x7d0.00" ∧
    formatMoney "" "toString" ≠ "toString" ++ "0.00" ∧
    formatMoney "" "toString" ≠ symbolOrCode "toString" ++ "0.00" := by
  refine ⟨by decide, by decide, by decide⟩

/-- C10 (amended): a product whose minimum-variant-price amount string
is empty or whitespace-only is formatted, for every currency code that
does not name an inherited Object-prototype property (as no ISO
currency code does), as the currency symbol (or raw code) followed by
0.00 — for USD as $0.00 — since the string coerces to the finite value
zero; the renderer therefore emits that zero price line instead of
omitting the price. -/
theorem whitespace_amount_price (ws : String)
    (hws : ws.data.all jsWhitespaceChar = true) :
    (∀ c, protoProps.lookup c = none →
      formatMoney ws c = symbolOrCode c ++ "0.00") ∧
    formatMoney ws "USD" = "$0.00" ∧
    (∀ ct link t url img alt,
      (priceSeg1 ++ "$0.00" ++ priceSeg2).data <:+:
        (buildHtml ct [ProductRecord.mk t url (formatMoney ws "USD") img alt] link).data) := by
  have ht : ((ws.data.dropWhile jsWhitespaceChar).reverse.dropWhile jsWhitespaceChar).reverse
      = [] := by
    have h1 : ws.data.dropWhile jsWhitespaceChar = [] := by
      rw [List.dropWhile_eq_nil_iff]
      intro x hx
      exact List.all_eq_true.mp hws x hx
    rw [h1]
    rfl
  have hn : jsNumber ws = some (JsNum.mk 0 1) := by
    simp only [jsNumber]
    rw [ht]
  have hf : ∀ c, protoProps.lookup c = none →
      formatMoney ws c = symbolOrCode c ++ "0.00" := by
    intro c hp
    rw [formatMoney_some ws c (JsNum.mk 0 1) hn hp]
    rfl
  have hUSD : formatMoney ws "USD" = "$0.00" := by
    rw [hf "USD" (by decide)]
    rfl
  refine ⟨hf, hUSD, ?_⟩
  intro ct link t url img alt
  rw [hUSD]
  have hr : rowHtml (ProductRecord.mk t url "$0.00" img alt) =
      rowSeg1 ++ imgPiece img alt ++ rowSeg2 ++ esc t ++ rowSeg3 ++
        (priceSeg1 ++ "$0.00" ++ priceSeg2) ++ rowSeg4 := rfl
  rw [buildHtml_singleton, hr]
  exact ⟨(seg1 ++ link ++ seg2 ++ esc ct ++ seg3a ++ seg3b ++ countLine 1 ++ seg4a ++
    seg4b ++ rowSeg1 ++ imgPiece img alt ++ rowSeg2 ++ esc t ++ rowSeg3).data,
    (rowSeg4 ++ seg5).data, by simp [data_append, List.append_assoc]⟩

theorem whitespace_amount_price_witness :
    (" " : String).data.all jsWhitespaceChar = true ∧
    formatMoney " " "USD" = "$0.00" :=
  ⟨by decide, (whitespace_amount_price " " (by decide)).2.1⟩

set_option maxRecDepth 40000 in
/-- C1 counterexample: the renderer does not HTML-escape every
user-supplied text field before interpolation: a product image URL
containing a raw double quote is interpolated verbatim into the src
attribute (its raw quote appears in the output and its escaped form
does not). -/
theorem escaping_counterexample :
    1 ≤ countOcc "src=\"x\" y\"".data
      (buildHtml "T" [ProductRecord.mk "t" "u" "" "x\" y" "alt"] "L").data ∧
    countOcc "x&quot; y".data
      (buildHtml "T" [ProductRecord.mk "t" "u" "" "x\" y" "alt"] "L").data = 0 := by
  constructor
  · decide
  · decide

set_option maxRecDepth 40000 in
/-- C1 (amended): the renderer escapes the user-supplied title, image
alt text and price through esc before interpolation, while the image
URL and the collection link are interpolated raw; the escaper output
never contains a raw less-than, greater-than or double quote and every
ampersand in it starts an emitted entity, and the product title reaches
the output only through the escaper.  In particular the title
consisting of a bold tag with a quoted ampersand text escapes to the
fully entity-encoded form. -/
theorem escaping_amended (ct link url pr img alt : String) :
    (∀ s : String, EscapedHtml (esc s).data) ∧
    esc "<b>\"A&B\"</b>" = "&lt;b&gt;&quot;A&amp;B&quot;&lt;/b&gt;" ∧
    (∃ A B : List Char, ∀ title : String,
      (buildHtml ct [ProductRecord.mk title url pr img alt] link).data =
        A ++ (esc title).data ++ B) := by
  refine ⟨fun s => escL_escaped s.data, by decide, ?_⟩
  refine ⟨(seg1 ++ link ++ seg2 ++ esc ct ++ seg3a ++ seg3b ++ countLine 1 ++ seg4a ++
    seg4b ++ rowSeg1 ++ imgPiece img alt ++ rowSeg2).data,
    (rowSeg3 ++ pricePiece pr ++ rowSeg4 ++ seg5).data, ?_⟩
  intro title
  rw [buildHtml_singleton]
  have hr : rowHtml (ProductRecord.mk title url pr img alt) =
      rowSeg1 ++ imgPiece img alt ++ rowSeg2 ++ esc title ++ rowSeg3 ++
        pricePiece pr ++ rowSeg4 := rfl
  rw [hr]
  simp [data_append, List.append_assoc]

end FlwrFarm
